import Mathlib

/-!
Shallow embedding of the Albedo intent dispatch core
(src/intent/src/intent-dispatcher.js and the public API entry point),
together with the parts of its interface boundary the dispatcher relies on
(intent registry lookup, implicit session storage reads).

JavaScript values relevant to the dispatcher are modelled by the inductive
type JSVal below.  JS numbers are modelled as integers (no claim depends on
float behaviour, and no NaN appears).  A primitive string value is modelled
with no own properties (the dispatcher never reads the index/length
properties of a string).  A JS function value stringifies to its source
text; the model uses the constant "function", which is never a registry key
and never matches the public-key shape, which is all the dispatcher can
observe about it.
-/

set_option autoImplicit false

namespace Albedo

/-- A JavaScript value, as observed by the dispatcher. -/
inductive JSVal where
  | undefined
  | nullv
  | bool (b : Bool)
  | num (n : Int)
  | str (s : String)
  | obj (fields : List (String × JSVal))
  | func (fields : List (String × JSVal))

/-- JavaScript typeof operator (note typeof null is "object"). -/
def typeOf : JSVal → String
  | .undefined => "undefined"
  | .nullv => "object"
  | .bool _ => "boolean"
  | .num _ => "number"
  | .str _ => "string"
  | .obj _ => "object"
  | .func _ => "function"

/-- JavaScript truthiness of a value. -/
def truthy : JSVal → Bool
  | .undefined => false
  | .nullv => false
  | .bool b => b
  | .num n => if n = 0 then false else true
  | .str s => if s = "" then false else true
  | .obj _ => true
  | .func _ => true

/-- JavaScript ToString coercion (as used for property keys and regex
tests).  Plain objects yield "[object Object]"; a function yields its
source text, abstracted here as the constant "function". -/
def jsToString : JSVal → String
  | .undefined => "undefined"
  | .nullv => "null"
  | .bool true => "true"
  | .bool false => "false"
  | .num n => toString n
  | .str s => s
  | .obj _ => "[object Object]"
  | .func _ => "function"

/-- First-match lookup in an object field list (JS objects carry each key
once; the model reads the first occurrence). -/
def lookupField : List (String × JSVal) → String → Option JSVal
  | [], _ => none
  | (k, v) :: rest, key => if k = key then some v else lookupField rest key

/-- Property read on an object represented by its field list: an absent
key reads as undefined. -/
def getOwn (fields : List (String × JSVal)) (key : String) : JSVal :=
  (lookupField fields key).getD .undefined

/-- Property read on an arbitrary value: reading a property of undefined
or null throws a TypeError (modelled as none); primitives other than
objects and functions have no own properties the dispatcher reads. -/
def getProp : JSVal → String → Option JSVal
  | .undefined, _ => none
  | .nullv, _ => none
  | .obj fields, key => some (getOwn fields key)
  | .func fields, key => some (getOwn fields key)
  | _, _ => some .undefined

/-- Property assignment on an object field list: an existing key is
overwritten in place (its position is kept), a new key is appended — as
JS property assignment orders keys. -/
def setField : List (String × JSVal) → String → JSVal → List (String × JSVal)
  | [], key, v => [(key, v)]
  | (k, w) :: rest, key, v =>
      if k = key then (key, v) :: rest else (k, w) :: setField rest key v

/-- One character of the public-key body: the regex class [0-9A-Z]. -/
def isUpperAlnum (c : Char) : Bool := c.isUpper || c.isDigit

/-- The fixed public-key shape test of intent-dispatcher.js line 73:
the regex G followed by exactly 55 characters from [0-9A-Z], anchored. -/
def validPubkey (s : String) : Bool :=
  match s.data with
  | 'G' :: rest => rest.length = 55 && rest.all isUpperAlnum
  | _ => false

/-- Schema of a single declared parameter in an intent descriptor. -/
structure ParamProps where
  required : Bool

/-- An intent descriptor: the ordered list of declared parameters
(JS object key order models the for-in iteration order). -/
structure IntentDescriptor where
  params : List (String × ParamProps)

/-- The intent registry (the static intent-interface table, imported by the
dispatcher from outside this codebase): a string-keyed partial map from
intent name to descriptor. -/
def Registry := String → Option IntentDescriptor

/-- The error conditions the dispatcher can reject with, named after the
spec's error taxonomy; each corresponds to one Error construction site in
the source. -/
inductive DispatchError where
  | missingIntent
  | unknownIntent (intent : String)
  | invalidParameters
  | invalidPubkey
  | missingRequiredParameter (param : String) (intent : String)
  deriving DecidableEq

/-- The exact message of each Error constructed by the dispatcher. -/
def errorMessage : DispatchError → String
  | .missingIntent => "Parameter \"intent\" is required."
  | .unknownIntent i => "Unknown intent: \"" ++ i ++ "\"."
  | .invalidParameters => "Intent parameters expected."
  | .invalidPubkey => "Invalid \"pubkey\" parameter. Stellar account public key expected."
  | .missingRequiredParameter p i =>
      "Parameter \"" ++ p ++ "\" is required for intent \"" ++ i ++ "\"."

/-- A stored implicit session record. -/
structure ImplicitSession where
  pubkey : String
  key : String
  valid_until : Nat
  grants : List String

/-- Modelled from the spec: implicit-session-storage.js is not part of the
provided sources; per spec section 4.2 the Session Store get operation
returns a session only if one is stored for the pubkey, it is not expired
(expiry evaluated at read time against the current clock), and the
requested intent is a member of its grants; otherwise absent.  The intent
argument is the envelope's intent value; membership in grants (a list of
intent name strings) is strict, so only a string intent can match. -/
def grantsInclude (intent : JSVal) (grants : List String) : Bool :=
  match intent with
  | .str i => i ∈ grants
  | _ => false

/-- Modelled from the spec: the Session Store get operation (see
grantsInclude above for the provenance note). -/
def getImplicitSession (sessions : List ImplicitSession) (now : Nat)
    (intent pubkey : JSVal) : Option ImplicitSession :=
  match sessions.find? (fun s => s.pubkey = jsToString pubkey) with
  | none => none
  | some s =>
      if now < s.valid_until ∧ grantsInclude intent s.grants then some s
      else none

/-- The three mutually exclusive transports the dispatcher can construct.
Iframe and dialog transports are created for a given frontend URL. -/
inductive Transport where
  | extension
  | iframe (frontendUrl : String)
  | dialog (frontendUrl : String)

/-- The observable effects of one dispatch call, in the order the source
performs them. -/
inductive Event where
  | transportCreated (t : Transport)
  | messagePosted (t : Transport) (payload : List (String × JSVal))
  | sessionSaved (result : List (String × JSVal))

/-- The host environment of a dispatch call: whether the browser extension
channel is available (truthiness of window.albedo &&
window.albedo.extensionEnabled), the session store contents and current
clock, and the transport exchange (postMessage resolving with a result
object, per the spec's Result payload interface). -/
structure Env where
  extensionEnabled : Bool
  sessions : List ImplicitSession
  now : Nat
  exchange : Transport → List (String × JSVal) → List (String × JSVal)

/-- The implicit-session lookup performed by sendRequest: only attempted
when the envelope carries a truthy pubkey. -/
def sessionLookup (env : Env) (params : List (String × JSVal)) :
    Option ImplicitSession :=
  if truthy (getOwn params "pubkey") then
    getImplicitSession env.sessions env.now (getOwn params "intent")
      (getOwn params "pubkey")
  else none

/-- The post-processing condition of sendRequest line 54: the resolved
result's intent is strictly equal to the string implicit_flow and its
granted flag is truthy. -/
def isImplicitGrant (result : List (String × JSVal)) : Bool :=
  (match getOwn result "intent" with
    | .str s => s = "implicit_flow"
    | _ => false) && truthy (getOwn result "granted")

/-- Result of sendRequest: the selected transport, the envelope actually
posted, the resolved result, and the effect trace. -/
structure SendResult where
  transport : Transport
  posted : List (String × JSVal)
  result : List (String × JSVal)
  events : List Event

/-- IntentDispatcher.sendRequest (intent-dispatcher.js lines 31-59):
select the extension transport when available; on a truthy pubkey consult
the session store, attach the stored token as the session field and fall
back to an iframe transport when no transport was selected yet; otherwise
create a dialog transport; post the envelope; if the resolved result has
intent strictly equal to implicit_flow and a truthy granted flag, save the
session before returning the result. -/
def sendRequest (env : Env) (params : List (String × JSVal))
    (frontendUrl : String) : SendResult :=
  let extT : Option Transport :=
    if env.extensionEnabled then some .extension else none
  let sess := sessionLookup env params
  let posted := match sess with
    | some s => setField params "session" (.str s.key)
    | none => params
  let withFrame : Option Transport := match sess with
    | some _ => some (extT.getD (.iframe frontendUrl))
    | none => extT
  let t := withFrame.getD (.dialog frontendUrl)
  let result := env.exchange t posted
  { transport := t
    posted := posted
    result := result
    events := [.transportCreated t, .messagePosted t posted] ++
      (if isImplicitGrant result then [.sessionSaved result] else []) }

/-- Outcome of a step of validation: a synchronous TypeError, a rejected
promise carrying an error, or a value. -/
inductive VOutcome (α : Type) where
  | throws
  | rejected (e : DispatchError)
  | ok (a : α)

/-- The required-parameter loop of prepareRequestParams (lines 76-83):
for each declared parameter in order, copy a truthy caller value into the
accumulated envelope, reject when a required value is falsy, skip an
optional falsy value. -/
def buildParams (fields : List (String × JSVal)) (intent : JSVal) :
    List (String × ParamProps) → List (String × JSVal) →
    VOutcome (List (String × JSVal))
  | [], acc => .ok acc
  | (key, props) :: rest, acc =>
      let value := getOwn fields key
      if truthy value then buildParams fields intent rest (setField acc key value)
      else if props.required then
        .rejected (.missingRequiredParameter key (jsToString intent))
      else buildParams fields intent rest acc

/-- The declared parameters of a descriptor the caller supplied truthy
values for, in declaration order — used to state what buildParams builds. -/
def selectParams (fields : List (String × JSVal)) :
    List (String × ParamProps) → List (String × JSVal)
  | [] => []
  | (key, _) :: rest =>
      if truthy (getOwn fields key) then
        (key, getOwn fields key) :: selectParams fields rest
      else selectParams fields rest

/-- IntentDispatcher.prepareRequestParams (lines 68-85): reject with
InvalidParameters unless typeof params is object (note typeof null is
object, but destructuring null throws); validate a truthy pubkey against
the fixed shape; then run the required-parameter loop starting from an
envelope holding only the intent. -/
def prepareRequestParams (desc : IntentDescriptor) (params : JSVal) :
    VOutcome (List (String × JSVal)) :=
  match params with
  | .obj fields =>
      let intent := getOwn fields "intent"
      let pubkey := getOwn fields "pubkey"
      if truthy pubkey && !(validPubkey (jsToString pubkey)) then
        .rejected .invalidPubkey
      else buildParams fields intent desc.params [("intent", intent)]
  | .nullv => .throws
  | _ => .rejected .invalidParameters

/-- Outcome of a whole dispatch call: a synchronous throw, a rejection
during validation, or a completed transport exchange. -/
inductive Outcome where
  | throws
  | rejected (e : DispatchError)
  | sent (r : SendResult)

/-- IntentDispatcher.requestIntentConfirmation (lines 12-23), composed with
sendRequest: read params.intent (throws on null/undefined params), reject
with MissingIntent when falsy, look the intent up in the registry (property
access coerces the key to a string), reject with UnknownIntent when absent,
then prepare the envelope and send it.  The second component is the effect
trace of the call. -/
def requestIntentConfirmation (registry : Registry) (env : Env)
    (params : JSVal) (frontendUrl : String) : Outcome × List Event :=
  match getProp params "intent" with
  | none => (.throws, [])
  | some intent =>
      if truthy intent then
        match registry (jsToString intent) with
        | none => (.rejected (.unknownIntent (jsToString intent)), [])
        | some desc =>
            match prepareRequestParams desc params with
            | .throws => (.throws, [])
            | .rejected e => (.rejected e, [])
            | .ok rp =>
                let r := sendRequest env rp frontendUrl
                (.sent r, r.events)
      else (.rejected .missingIntent, [])

/-- A heap of JS objects, for the aliasing behaviour of the public entry
point: an object reference is an index into the heap. -/
structure Heap where
  objs : List (List (String × JSVal))

/-- Dereference an object. -/
def Heap.get (h : Heap) (r : Nat) : List (String × JSVal) :=
  h.objs.getD r []

/-- Overwrite the object stored at a reference. -/
def Heap.setObj (h : Heap) (r : Nat) (fields : List (String × JSVal)) : Heap :=
  ⟨h.objs.set r fields⟩

/-- The AlbedoIntent.request entry point's argument shaping (the public API
file, line 28): Object.assign(params or an empty object, with the intent
argument) — a falsy params (modelled as none) allocates a fresh object;
otherwise the caller's own object is mutated in place (its intent field is
overwritten) and that same reference is what gets dispatched.  Returns the
updated heap and the reference passed on to requestIntentConfirmation. -/
def requestEntry (h : Heap) (intent : String) (params : Option Nat) :
    Heap × Nat :=
  match params with
  | some r => (h.setObj r (setField (h.get r) "intent" (.str intent)), r)
  | none => (⟨h.objs ++ [[("intent", JSVal.str intent)]]⟩, h.objs.length)

/-- A sample registry for concrete witnesses, mirroring the shape of the
static intent-interface table (tx with a required xdr, implicit_flow with
required intents, public_key with a required token). -/
def sampleRegistry : Registry := fun name =>
  if name = "tx" then
    some ⟨[("xdr", ⟨true⟩), ("pubkey", ⟨false⟩), ("network", ⟨false⟩),
           ("submit", ⟨false⟩)]⟩
  else if name = "implicit_flow" then
    some ⟨[("intents", ⟨true⟩), ("pubkey", ⟨false⟩)]⟩
  else if name = "public_key" then
    some ⟨[("token", ⟨true⟩)]⟩
  else none

/-- A 56-character string of the valid public-key shape, for witnesses. -/
def samplePubkey : String :=
  "G" ++ String.mk (List.replicate 55 'A')

/-- A sample environment with no extension, one stored session for
samplePubkey granting tx, and an exchange echoing the envelope. -/
def sampleEnv : Env :=
  { extensionEnabled := false
    sessions := [⟨samplePubkey, "tok123", 1000, ["tx", "pay"]⟩]
    now := 5
    exchange := fun _ p => p }

/-- A sample environment whose exchange resolves with a granted
implicit_flow result. -/
def grantEnv : Env :=
  { extensionEnabled := false
    sessions := []
    now := 0
    exchange := fun _ _ =>
      [("intent", .str "implicit_flow"), ("granted", .bool true),
       ("pubkey", .str samplePubkey)] }

/-- Does the value carry the object constructor (a structured mapping)? -/
def isObj : JSVal → Bool
  | .obj _ => true
  | _ => false

/-- Sample envelope carrying a pubkey covered by sampleEnv's session. -/
def wParamsTx : List (String × JSVal) :=
  [("intent", .str "tx"), ("pubkey", .str samplePubkey)]

/-- The session stored in sampleEnv. -/
def wSession : ImplicitSession := ⟨samplePubkey, "tok123", 1000, ["tx", "pay"]⟩

/-- A one-object heap whose object already carries an intent field. -/
def sampleHeap : Heap := ⟨[[("intent", .str "other"), ("xdr", .str "AA")]]⟩

/-- The tx intent descriptor of the sample registry. -/
def txDescriptor : IntentDescriptor :=
  ⟨[("xdr", ⟨true⟩), ("pubkey", ⟨false⟩), ("network", ⟨false⟩),
    ("submit", ⟨false⟩)]⟩

/- ===================== Helper lemmas ===================== -/

theorem lookupField_setField_self (o : List (String × JSVal)) (k : String)
    (v : JSVal) : lookupField (setField o k v) k = some v := by
  induction o with
  | nil => simp [setField, lookupField]
  | cons p rest ih =>
      obtain ⟨k0, v0⟩ := p
      by_cases h : k0 = k <;> simp [setField, lookupField, h, ih]

theorem lookupField_setField_ne (o : List (String × JSVal)) (k : String)
    (v : JSVal) (k' : String) (h : k' ≠ k) :
    lookupField (setField o k v) k' = lookupField o k' := by
  induction o with
  | nil => simp [setField, lookupField, Ne.symm h]
  | cons p rest ih =>
      obtain ⟨k0, v0⟩ := p
      by_cases h0 : k0 = k
      · subst h0
        simp [setField, lookupField, Ne.symm h]
      · by_cases h1 : k0 = k' <;>
          simp [setField, lookupField, h0, h1, h, ih]

theorem setField_eq_append (o : List (String × JSVal)) (k : String)
    (v : JSVal) (h : lookupField o k = none) :
    setField o k v = o ++ [(k, v)] := by
  induction o with
  | nil => simp [setField]
  | cons p rest ih =>
      obtain ⟨k0, v0⟩ := p
      by_cases h0 : k0 = k
      · simp [lookupField, h0] at h
      · simp [lookupField, h0] at h
        simp [setField, h0, ih h]

theorem lookupField_append (a b : List (String × JSVal)) (k : String) :
    lookupField (a ++ b) k =
      (lookupField a k).elim (lookupField b k) some := by
  induction a with
  | nil => simp [lookupField]
  | cons p rest ih =>
      obtain ⟨k0, v0⟩ := p
      by_cases h0 : k0 = k <;> simp [lookupField, h0, ih]

theorem buildParams_ok_eq (fields : List (String × JSVal)) (intent : JSVal) :
    ∀ (l : List (String × ParamProps)) (acc rp : List (String × JSVal)),
    (l.map Prod.fst).Nodup →
    (∀ k, k ∈ l.map Prod.fst → lookupField acc k = none) →
    buildParams fields intent l acc = .ok rp →
    rp = acc ++ selectParams fields l := by
  intro l
  induction l with
  | nil =>
      intro acc rp _ _ h
      simp [buildParams] at h
      simp [selectParams, h]
  | cons p rest ih =>
      obtain ⟨key, props⟩ := p
      intro acc rp hnd hdisj h
      have hnd2 : (key :: rest.map Prod.fst).Nodup := hnd
      have hkey : key ∉ rest.map Prod.fst := (List.nodup_cons.mp hnd2).1
      have hnd' : (rest.map Prod.fst).Nodup := (List.nodup_cons.mp hnd2).2
      by_cases ht : truthy (getOwn fields key) = true
      · have hset : setField acc key (getOwn fields key) =
            acc ++ [(key, getOwn fields key)] :=
          setField_eq_append acc key _ (hdisj key (by simp))
        have h' : buildParams fields intent rest
            (acc ++ [(key, getOwn fields key)]) = .ok rp := by
          simpa [buildParams, ht, hset] using h
        have hdisj' : ∀ k, k ∈ rest.map Prod.fst →
            lookupField (acc ++ [(key, getOwn fields key)]) k = none := by
          intro k hk
          have hne : key ≠ k := fun hkk => hkey (hkk ▸ hk)
          rw [lookupField_append, hdisj k (by simp [hk])]
          simp [lookupField, hne]
        have := ih (acc ++ [(key, getOwn fields key)]) rp hnd' hdisj' h'
        simp [this, selectParams, ht]
      · have ht' : truthy (getOwn fields key) = false := by
          simpa using ht
        by_cases hr : props.required = true
        · simp [buildParams, ht', hr] at h
        · have hr' : props.required = false := by simpa using hr
          have h' : buildParams fields intent rest acc = .ok rp := by
            simpa [buildParams, ht', hr'] using h
          have hdisj' : ∀ k, k ∈ rest.map Prod.fst →
              lookupField acc k = none := fun k hk => hdisj k (by simp [hk])
          have := ih acc rp hnd' hdisj' h'
          simp [this, selectParams, ht']

theorem lookupField_selectParams (fields : List (String × JSVal))
    (l : List (String × ParamProps)) (k : String) (v : JSVal) :
    lookupField (selectParams fields l) k = some v ↔
      ∃ props, (k, props) ∈ l ∧ truthy (getOwn fields k) = true ∧
        v = getOwn fields k := by
  induction l with
  | nil => simp [selectParams, lookupField]
  | cons p rest ih =>
      obtain ⟨key, props⟩ := p
      simp only [selectParams]
      by_cases ht : truthy (getOwn fields key) = true
      · rw [if_pos ht]
        by_cases hk : key = k
        · subst hk
          simp only [lookupField, if_pos rfl]
          constructor
          · intro hv
            exact ⟨props, List.mem_cons_self _ _, ht,
              (Option.some.inj hv).symm⟩
          · rintro ⟨props', hm, h1, h2⟩
            simp [h2]
        · simp only [lookupField, if_neg hk, ih]
          constructor
          · rintro ⟨props', hm, h1, h2⟩
            exact ⟨props', List.mem_cons_of_mem _ hm, h1, h2⟩
          · rintro ⟨props', hm, h1, h2⟩
            rcases List.mem_cons.mp hm with heq | hm'
            · exact absurd (congrArg Prod.fst heq).symm hk
            · exact ⟨props', hm', h1, h2⟩
      · rw [if_neg ht, ih]
        by_cases hk : key = k
        · subst hk
          constructor
          · rintro ⟨props', hm, h1, h2⟩
            exact ⟨props', List.mem_cons_of_mem _ hm, h1, h2⟩
          · rintro ⟨props', hm, h1, h2⟩
            exact absurd h1 ht
        · constructor
          · rintro ⟨props', hm, h1, h2⟩
            exact ⟨props', List.mem_cons_of_mem _ hm, h1, h2⟩
          · rintro ⟨props', hm, h1, h2⟩
            rcases List.mem_cons.mp hm with heq | hm'
            · exact absurd (congrArg Prod.fst heq).symm hk
            · exact ⟨props', hm', h1, h2⟩

theorem buildParams_reject_first (fields : List (String × JSVal))
    (intent : JSVal) (p : String) (props : ParamProps)
    (rest : List (String × ParamProps))
    (hreq : props.required = true)
    (hmiss : truthy (getOwn fields p) = false) :
    ∀ (pre : List (String × ParamProps)) (acc : List (String × JSVal)),
    (∀ q qp, (q, qp) ∈ pre → truthy (getOwn fields q) = false →
      qp.required = false) →
    buildParams fields intent (pre ++ (p, props) :: rest) acc =
      .rejected (.missingRequiredParameter p (jsToString intent)) := by
  intro pre
  induction pre with
  | nil =>
      intro acc _
      simp [buildParams, hmiss, hreq]
  | cons q0 pre' ih =>
      obtain ⟨q, qp⟩ := q0
      intro acc hpre
      by_cases ht : truthy (getOwn fields q) = true
      · simp only [List.cons_append, buildParams, ht, if_true]
        exact ih _ (fun a b hab hf => hpre a b (List.mem_cons_of_mem _ hab) hf)
      · have ht' : truthy (getOwn fields q) = false := by simpa using ht
        have hq : qp.required = false := hpre q qp (by simp) ht'
        simp only [List.cons_append, buildParams, ht', if_false, hq,
          Bool.false_eq_true]
        exact ih _ (fun a b hab hf => hpre a b (List.mem_cons_of_mem _ hab) hf)

theorem isImplicitGrant_iff (result : List (String × JSVal)) :
    isImplicitGrant result = true ↔
      (getOwn result "intent" = JSVal.str "implicit_flow" ∧
       truthy (getOwn result "granted") = true) := by
  unfold isImplicitGrant
  rcases h : getOwn result "intent" with _ | _ | b | n | s | o | f <;> simp [h]

theorem sendRequest_events (env : Env) (params : List (String × JSVal))
    (url : String) :
    (sendRequest env params url).events =
      [.transportCreated (sendRequest env params url).transport,
       .messagePosted (sendRequest env params url).transport
         (sendRequest env params url).posted] ++
      (if isImplicitGrant (sendRequest env params url).result then
        [.sessionSaved (sendRequest env params url).result] else []) := rfl

theorem getD_set_self {α : Type} (l : List α) (i : Nat) (x d : α)
    (h : i < l.length) : (l.set i x).getD i d = x := by
  induction l generalizing i with
  | nil => simp at h
  | cons a t ih =>
      cases i with
      | zero => simp [List.getD]
      | succ n => simpa [List.getD] using ih n (by simpa using h)

/- ===================== Claim theorems ===================== -/

/-- C4: for every params object whose intent field is absent or falsy,
dispatch rejects with MissingIntent and performs no further processing
(empty effect trace). -/
theorem missing_intent_rejects (reg : Registry) (env : Env)
    (fields : List (String × JSVal)) (url : String)
    (h : truthy (getOwn fields "intent") = false) :
    requestIntentConfirmation reg env (.obj fields) url =
      (.rejected .missingIntent, []) := by
  simp [requestIntentConfirmation, getProp, h]

/-- Witness for C4 at a concrete empty params object. -/
theorem missing_intent_rejects_witness :
    requestIntentConfirmation sampleRegistry sampleEnv (.obj []) "u" =
      (.rejected .missingIntent, []) :=
  missing_intent_rejects sampleRegistry sampleEnv [] "u" rfl

/-- C5: for every intent name with no descriptor in the registry, dispatch
rejects with UnknownIntent naming that intent, with an empty effect trace
(no transport work). -/
theorem unknown_intent_rejects (reg : Registry) (env : Env) (params : JSVal)
    (url : String) (name : String)
    (h1 : getProp params "intent" = some (.str name))
    (h2 : name ≠ "")
    (h3 : reg name = none) :
    requestIntentConfirmation reg env params url =
      (.rejected (.unknownIntent name), []) := by
  simp [requestIntentConfirmation, h1, truthy, h2, jsToString, h3]

/-- Witness for C5 at a concrete unknown intent name. -/
theorem unknown_intent_rejects_witness :
    requestIntentConfirmation sampleRegistry sampleEnv
      (.obj [("intent", .str "frobnicate")]) "u" =
      (.rejected (.unknownIntent "frobnicate"), []) :=
  unknown_intent_rejects sampleRegistry sampleEnv
    (.obj [("intent", .str "frobnicate")]) "u" "frobnicate" rfl
    (by decide) rfl

/-- C7: a supplied truthy pubkey that fails the fixed shape check makes
dispatch reject with InvalidPubkey (given the earlier intent checks pass,
which are required to reach the pubkey validation); it is never silently
dropped, and no transport work happens. -/
theorem invalid_pubkey_rejects (reg : Registry) (env : Env)
    (fields : List (String × JSVal)) (url : String) (desc : IntentDescriptor)
    (hintent : truthy (getOwn fields "intent") = true)
    (hreg : reg (jsToString (getOwn fields "intent")) = some desc)
    (hpk : truthy (getOwn fields "pubkey") = true)
    (hbad : validPubkey (jsToString (getOwn fields "pubkey")) = false) :
    requestIntentConfirmation reg env (.obj fields) url =
      (.rejected .invalidPubkey, []) := by
  simp [requestIntentConfirmation, getProp, hintent, hreg,
    prepareRequestParams, hpk, hbad]

/-- C3: on success, the envelope produced by parameter preparation
contains exactly the intent field (holding the caller's intent value) plus
those parameters declared in the descriptor for which the caller supplied
a truthy value; no undeclared caller parameter ever appears.  Hypotheses:
the descriptor's declared keys are distinct and do not declare a key named
intent (JS object keys are unique; no real descriptor declares intent). -/
theorem prepared_envelope_exact (desc : IntentDescriptor)
    (fields rp : List (String × JSVal))
    (hnd : (desc.params.map Prod.fst).Nodup)
    (hint : "intent" ∉ desc.params.map Prod.fst)
    (hok : prepareRequestParams desc (.obj fields) = .ok rp)
    (k : String) (v : JSVal) :
    lookupField rp k = some v ↔
      ((k = "intent" ∧ v = getOwn fields "intent") ∨
       (∃ props, (k, props) ∈ desc.params ∧
         truthy (getOwn fields k) = true ∧ v = getOwn fields k)) := by
  have hbuild : buildParams fields (getOwn fields "intent") desc.params
      [("intent", getOwn fields "intent")] = .ok rp := by
    simp only [prepareRequestParams] at hok
    split at hok
    · exact absurd hok (by simp)
    · exact hok
  have hdisj : ∀ k', k' ∈ desc.params.map Prod.fst →
      lookupField [("intent", getOwn fields "intent")] k' = none := by
    intro k' hk'
    have hne : "intent" ≠ k' := fun h => hint (h ▸ hk')
    simp [lookupField, hne]
  have hrp := buildParams_ok_eq fields (getOwn fields "intent")
    desc.params _ rp hnd hdisj hbuild
  subst hrp
  rw [lookupField_append]
  by_cases hk : k = "intent"
  · subst hk
    constructor
    · intro hv
      have hv' : some (getOwn fields "intent") = some v := hv
      exact Or.inl ⟨rfl, (Option.some.inj hv').symm⟩
    · rintro (⟨_, hv⟩ | ⟨props, hm, _, _⟩)
      · simp [lookupField, hv]
      · exact absurd (List.mem_map_of_mem Prod.fst hm) hint
  · have hne : "intent" ≠ k := fun h => hk h.symm
    simp only [lookupField, if_neg hne, Option.elim]
    rw [lookupField_selectParams]
    constructor
    · intro h
      exact Or.inr h
    · rintro (⟨hke, _⟩ | h)
      · exact absurd hke hk
      · exact h

/-- Witness for C3: a concrete tx call with a junk parameter; the prepared
envelope holds the declared xdr but answers the characterization at the
declared key. -/
theorem prepared_envelope_exact_witness :
    lookupField [("intent", JSVal.str "tx"), ("xdr", JSVal.str "AAA")]
      "xdr" = some (JSVal.str "AAA") ↔
      (("xdr" = "intent" ∧ JSVal.str "AAA" =
          getOwn [("intent", JSVal.str "tx"), ("xdr", JSVal.str "AAA"),
            ("junk", JSVal.str "x")] "intent") ∨
       (∃ props, ("xdr", props) ∈ txDescriptor.params ∧
         truthy (getOwn [("intent", JSVal.str "tx"),
           ("xdr", JSVal.str "AAA"), ("junk", JSVal.str "x")] "xdr") = true ∧
         JSVal.str "AAA" = getOwn [("intent", JSVal.str "tx"),
           ("xdr", JSVal.str "AAA"), ("junk", JSVal.str "x")] "xdr")) :=
  prepared_envelope_exact txDescriptor
    [("intent", JSVal.str "tx"), ("xdr", JSVal.str "AAA"),
     ("junk", JSVal.str "x")]
    [("intent", JSVal.str "tx"), ("xdr", JSVal.str "AAA")]
    (by decide) (by decide) rfl "xdr" (JSVal.str "AAA")

/-- C8: a dispatch call omitting (or supplying falsy) a parameter p that
the intent's descriptor marks required rejects with
MissingRequiredParameter, whose message names both p and the intent.
Hypotheses position the call at that check: the intent is truthy and
known, a supplied pubkey is well-formed, and every declared parameter
before p is either supplied truthy or optional (the loop reports the
first missing required parameter). -/
theorem missing_required_rejects (reg : Registry) (env : Env)
    (fields : List (String × JSVal)) (url : String) (desc : IntentDescriptor)
    (pre rest : List (String × ParamProps)) (p : String) (props : ParamProps)
    (hintent : truthy (getOwn fields "intent") = true)
    (hreg : reg (jsToString (getOwn fields "intent")) = some desc)
    (hguard : (truthy (getOwn fields "pubkey") &&
      !(validPubkey (jsToString (getOwn fields "pubkey")))) = false)
    (hsplit : desc.params = pre ++ (p, props) :: rest)
    (hreq : props.required = true)
    (hmiss : truthy (getOwn fields p) = false)
    (hpre : ∀ q qp, (q, qp) ∈ pre → truthy (getOwn fields q) = false →
      qp.required = false) :
    requestIntentConfirmation reg env (.obj fields) url =
      (.rejected (.missingRequiredParameter p
        (jsToString (getOwn fields "intent"))), []) ∧
    errorMessage (.missingRequiredParameter p
      (jsToString (getOwn fields "intent"))) =
      "Parameter \"" ++ p ++ "\" is required for intent \"" ++
        jsToString (getOwn fields "intent") ++ "\"." := by
  refine ⟨?_, rfl⟩
  have hb := buildParams_reject_first fields (getOwn fields "intent") p props
    rest hreq hmiss pre [("intent", getOwn fields "intent")] hpre
  rw [← hsplit] at hb
  simp [requestIntentConfirmation, getProp, hintent, hreg,
    prepareRequestParams, hguard, hb]

/-- Witness for C8: a tx call omitting the required xdr parameter. -/
theorem missing_required_rejects_witness :
    requestIntentConfirmation sampleRegistry sampleEnv
      (.obj [("intent", .str "tx")]) "u" =
      (.rejected (.missingRequiredParameter "xdr" "tx"), []) :=
  (missing_required_rejects sampleRegistry sampleEnv
    [("intent", .str "tx")] "u" txDescriptor []
    [("pubkey", ⟨false⟩), ("network", ⟨false⟩), ("submit", ⟨false⟩)]
    "xdr" ⟨true⟩ rfl rfl rfl rfl rfl rfl
    (fun _ _ h => absurd h (List.not_mem_nil _))).1

/-- Witness for C7 at a concrete malformed pubkey. -/
theorem invalid_pubkey_rejects_witness :
    requestIntentConfirmation sampleRegistry sampleEnv
      (.obj [("intent", .str "tx"), ("pubkey", .str "BAD")]) "u" =
      (.rejected .invalidPubkey, []) :=
  invalid_pubkey_rejects sampleRegistry sampleEnv
    [("intent", .str "tx"), ("pubkey", .str "BAD")] "u"
    ⟨[("xdr", ⟨true⟩), ("pubkey", ⟨false⟩), ("network", ⟨false⟩),
      ("submit", ⟨false⟩)]⟩ rfl rfl rfl rfl

/-- C1: the transport is selected by a first-match tie-break: an available
extension channel wins regardless of session state; otherwise an
applicable implicit session (envelope carries a truthy pubkey and the
Session Store returns a non-expired session granting this intent) selects
the iframe transport; otherwise the dialog transport.  Whenever an
applicable session exists its stored token is attached to the envelope as
the session field, also when the extension transport was selected. -/
theorem transport_selection_first_match (env : Env)
    (params : List (String × JSVal)) (url : String) :
    (env.extensionEnabled = true →
      (sendRequest env params url).transport = .extension) ∧
    (env.extensionEnabled = false → ∀ s, sessionLookup env params = some s →
      (sendRequest env params url).transport = .iframe url) ∧
    (env.extensionEnabled = false → sessionLookup env params = none →
      (sendRequest env params url).transport = .dialog url) ∧
    (∀ s, sessionLookup env params = some s →
      lookupField (sendRequest env params url).posted "session" =
        some (.str s.key)) := by
  refine ⟨?_, ?_, ?_, ?_⟩
  · intro hx
    rcases hs : sessionLookup env params with _ | s <;>
      simp [sendRequest, hx, hs]
  · intro hx s hs
    simp [sendRequest, hx, hs]
  · intro hx hs
    simp [sendRequest, hx, hs]
  · intro s hs
    rcases hx : env.extensionEnabled <;>
      simp [sendRequest, hx, hs, lookupField_setField_self]

/-- Witness for C1: no extension, stored applicable session — the iframe
transport is selected and the stored token is attached. -/
theorem transport_selection_first_match_witness :
    (sendRequest sampleEnv wParamsTx "u").transport = Transport.iframe "u" ∧
    lookupField (sendRequest sampleEnv wParamsTx "u").posted "session" =
      some (.str "tok123") :=
  ⟨(transport_selection_first_match sampleEnv wParamsTx "u").2.1 rfl
      wSession rfl,
   (transport_selection_first_match sampleEnv wParamsTx "u").2.2.2
      wSession rfl⟩

/-- C2: the result resolved by the transport exchange is returned
unchanged; the Session Store add operation is called with the result
(before it is returned — the sessionSaved effect is part of the call's
trace) exactly when the result's intent is implicit_flow and its granted
flag is truthy; otherwise no store write occurs. -/
theorem implicit_flow_persists (env : Env) (params : List (String × JSVal))
    (url : String) :
    (sendRequest env params url).result =
      env.exchange (sendRequest env params url).transport
        (sendRequest env params url).posted ∧
    ((getOwn (sendRequest env params url).result "intent" =
        JSVal.str "implicit_flow" ∧
      truthy (getOwn (sendRequest env params url).result "granted") = true) →
      (sendRequest env params url).events =
        [.transportCreated (sendRequest env params url).transport,
         .messagePosted (sendRequest env params url).transport
           (sendRequest env params url).posted,
         .sessionSaved (sendRequest env params url).result]) ∧
    (¬(getOwn (sendRequest env params url).result "intent" =
        JSVal.str "implicit_flow" ∧
      truthy (getOwn (sendRequest env params url).result "granted") = true) →
      (sendRequest env params url).events =
        [.transportCreated (sendRequest env params url).transport,
         .messagePosted (sendRequest env params url).transport
           (sendRequest env params url).posted]) := by
  refine ⟨rfl, ?_, ?_⟩
  · intro h
    have hg : isImplicitGrant (sendRequest env params url).result = true :=
      (isImplicitGrant_iff _).mpr h
    rw [sendRequest_events, hg]
    simp
  · intro h
    have hg : isImplicitGrant (sendRequest env params url).result = false := by
      rcases Bool.eq_false_or_eq_true
        (isImplicitGrant (sendRequest env params url).result) with hb | hb
      · exact absurd ((isImplicitGrant_iff _).mp hb) h
      · exact hb
    rw [sendRequest_events, hg]
    simp

/-- Witness for C2: an exchange resolving a granted implicit_flow result
produces the sessionSaved effect. -/
theorem implicit_flow_persists_witness :
    (sendRequest grantEnv [("intent", JSVal.str "implicit_flow")] "u").events =
      [.transportCreated
        (sendRequest grantEnv [("intent", JSVal.str "implicit_flow")] "u").transport,
       .messagePosted
        (sendRequest grantEnv [("intent", JSVal.str "implicit_flow")] "u").transport
        (sendRequest grantEnv [("intent", JSVal.str "implicit_flow")] "u").posted,
       .sessionSaved
        (sendRequest grantEnv [("intent", JSVal.str "implicit_flow")] "u").result] :=
  (implicit_flow_persists grantEnv [("intent", JSVal.str "implicit_flow")]
    "u").2.1 ⟨rfl, rfl⟩

/-- C6 counterexample: a non-object params (the plain string tx) makes
dispatch reject with MissingIntent — reading the intent property of a
string primitive yields undefined — not with InvalidParameters as the
claim states for every non-object params. -/
theorem nonobject_params_counterexample :
    (requestIntentConfirmation sampleRegistry sampleEnv
      (.str "tx") "u").1 = .rejected .missingIntent ∧
    (requestIntentConfirmation sampleRegistry sampleEnv
      (.str "tx") "u").1 ≠ .rejected .invalidParameters := by
  constructor
  · rfl
  · intro h
    have h1 : Outcome.rejected .missingIntent =
        Outcome.rejected .invalidParameters := h
    exact absurd (Outcome.rejected.inj h1) (by decide)

/-- C6 amended: a params value that is not an object never reaches
transport work — dispatch throws exactly for null or undefined params,
and every other non-object params is rejected during validation; the
rejection is MissingIntent, UnknownIntent or InvalidParameters, and it is
InvalidParameters exactly when params is a callable carrying a truthy
intent known to the registry. -/
theorem nonobject_params_amended (reg : Registry) (env : Env) (v : JSVal)
    (url : String) (h : isObj v = false) :
    (requestIntentConfirmation reg env v url).2 = [] ∧
    (∀ r, (requestIntentConfirmation reg env v url).1 ≠ .sent r) ∧
    ((requestIntentConfirmation reg env v url).1 = .throws ↔
      (v = .undefined ∨ v = .nullv)) ∧
    ((v ≠ .undefined ∧ v ≠ .nullv) →
      ∃ e, (requestIntentConfirmation reg env v url).1 = .rejected e) ∧
    (∀ e, (requestIntentConfirmation reg env v url).1 = .rejected e →
      (e = .missingIntent ∨ (∃ i, e = .unknownIntent i) ∨
        e = .invalidParameters)) ∧
    ((requestIntentConfirmation reg env v url).1 =
        .rejected .invalidParameters ↔
      ∃ fields, v = .func fields ∧ truthy (getOwn fields "intent") = true ∧
        (reg (jsToString (getOwn fields "intent"))).isSome = true) := by
  cases v with
  | undefined => simp [requestIntentConfirmation, getProp]
  | nullv => simp [requestIntentConfirmation, getProp]
  | bool b => simp [requestIntentConfirmation, getProp, truthy]
  | num n =>
      by_cases hn : n = 0 <;>
        simp [requestIntentConfirmation, getProp, truthy, hn]
  | str s =>
      by_cases hs : s = "" <;>
        simp [requestIntentConfirmation, getProp, truthy, hs]
  | obj fields => simp [isObj] at h
  | func fields =>
      by_cases ht : truthy (getOwn fields "intent") = true
      · rcases hr : reg (jsToString (getOwn fields "intent")) with _ | desc
        · simp [requestIntentConfirmation, getProp, ht, hr]
        · simp [requestIntentConfirmation, getProp, ht, hr,
            prepareRequestParams]
      · have ht' : truthy (getOwn fields "intent") = false := by
          simpa using ht
        simp [requestIntentConfirmation, getProp, ht']

/-- Witness for C6 (amended) at a concrete non-object value. -/
theorem nonobject_params_amended_witness :
    (requestIntentConfirmation sampleRegistry sampleEnv
      (.str "x") "u").2 = [] :=
  (nonobject_params_amended sampleRegistry sampleEnv (.str "x") "u" rfl).1

/-- C9: any dispatch call that ends in a validation rejection has an empty
effect trace — no transport is created, no message posted and no session
stored. -/
theorem validation_failure_no_effects (reg : Registry) (env : Env)
    (params : JSVal) (url : String) (e : DispatchError)
    (h : (requestIntentConfirmation reg env params url).1 = .rejected e) :
    (requestIntentConfirmation reg env params url).2 = [] := by
  unfold requestIntentConfirmation at h ⊢
  rcases hg : getProp params "intent" with _ | intent
  · simp [hg]
  · by_cases ht : truthy intent = true
    · rcases hr : reg (jsToString intent) with _ | desc
      · simp [hg, ht, hr]
      · rcases hp : prepareRequestParams desc params with _ | e' | rp
        · simp [hg, ht, hr, hp]
        · simp [hg, ht, hr, hp]
        · simp [hg, ht, hr, hp] at h
    · have ht' : truthy intent = false := by simpa using ht
      simp [hg, ht']

/-- Witness for C9 at a concrete rejecting call. -/
theorem validation_failure_no_effects_witness :
    (requestIntentConfirmation sampleRegistry sampleEnv
      (.obj []) "u").2 = [] :=
  validation_failure_no_effects sampleRegistry sampleEnv (.obj [])
    "u" .missingIntent rfl

/-- C10: the public request(intent, params) entry point dispatches the
intent argument, overwriting any intent field the caller placed inside
params, and it mutates the caller's params object in place (same
reference, no allocation) rather than copying it before dispatch. -/
theorem request_overrides_and_mutates (h : Heap) (i : String) (r : Nat)
    (hr : r < h.objs.length) :
    (requestEntry h i (some r)).2 = r ∧
    (requestEntry h i (some r)).1.objs.length = h.objs.length ∧
    lookupField ((requestEntry h i (some r)).1.get r) "intent" =
      some (.str i) ∧
    (∀ k, k ≠ "intent" →
      lookupField ((requestEntry h i (some r)).1.get r) k =
        lookupField (h.get r) k) := by
  have hget : (requestEntry h i (some r)).1.get r =
      setField (h.get r) "intent" (.str i) := by
    simp only [requestEntry, Heap.setObj, Heap.get]
    exact getD_set_self _ _ _ _ hr
  refine ⟨rfl, by simp [requestEntry, Heap.setObj], ?_, ?_⟩
  · rw [hget]
    exact lookupField_setField_self _ _ _
  · intro k hk
    rw [hget]
    exact lookupField_setField_ne _ _ _ _ hk

/-- Witness for C10: a one-object heap whose object carried a different
intent; after the entry point, the same reference holds the new intent and
keeps its other fields. -/
theorem request_overrides_and_mutates_witness :
    (requestEntry sampleHeap "tx" (some 0)).2 = 0 ∧
    lookupField ((requestEntry sampleHeap "tx" (some 0)).1.get 0) "intent" =
      some (.str "tx") ∧
    lookupField ((requestEntry sampleHeap "tx" (some 0)).1.get 0) "xdr" =
      lookupField (sampleHeap.get 0) "xdr" :=
  ⟨(request_overrides_and_mutates sampleHeap "tx" 0 (by decide)).1,
   (request_overrides_and_mutates sampleHeap "tx" 0 (by decide)).2.2.1,
   (request_overrides_and_mutates sampleHeap "tx" 0 (by decide)).2.2.2
     "xdr" (by decide)⟩

end Albedo
